import Mathlib

/-!
# Verification of the `ocitools` bundle-validation engine

A shallow embedding of the validation code in `runtimetest.go`
(the `validate` command): the semantic rule checkers, the generic
mandatory-field walker, and the pipeline glue, together with theorems
settling the specification claims.

Conventions of the embedding:
* Go strings are Lean `String`; character-level work happens on `String.data`.
* `int64` fields are Lean `Int` (the checkers only compare, never overflow).
* The host filesystem is a value of type `FS`: a partial map from paths to
  file-mode bits, standing for `os.Stat`.
* A Go panic is `Except.error`; checkers that cannot panic return plain lists.
* Go `for` loops that conditionally append one error per element are written
  with `List.filterMap`; loops that thread extra state are written as
  explicit recursions in source order.
-/

/-- Character class of the RE2 escape `\d` in the version regex:
exactly the ASCII digits. -/
def reDigit (c : Char) : Bool :=
  '0' ≤ c && c ≤ '9'

/-- Model of Go `unicode.IsDigit` as used by `envValid`.  Go's predicate is
the Unicode `Nd` category; the model keeps its ASCII fragment.  Every theorem
below uses this same predicate on both the code side and the claim side, so
the restriction cannot change any verdict. -/
def goIsDigit (c : Char) : Bool :=
  '0' ≤ c && c ≤ '9'

/-- Model of Go `unicode.IsLetter` as used by `envValid`.  Go's predicate is
the Unicode letter categories; the model keeps its ASCII fragment.  As for
`goIsDigit`, both sides of every theorem use the same predicate. -/
def goIsLetter (c : Char) : Bool :=
  ('a' ≤ c && c ≤ 'z') || ('A' ≤ c && c ≤ 'Z')

/-- Go `unicode.IsSpace`: the Unicode `White_Space` code points, encoded
exactly (U+0009–U+000D, U+0020, U+0085, U+00A0, U+1680, U+2000–U+200A,
U+2028, U+2029, U+202F, U+205F, U+3000). -/
def goIsSpace (c : Char) : Bool :=
  let n := c.toNat
  (9 ≤ n && n ≤ 13) || n = 32 || n = 0x85 || n = 0xA0 || n = 0x1680 ||
  (0x2000 ≤ n && n ≤ 0x200A) || n = 0x2028 || n = 0x2029 ||
  n = 0x202F || n = 0x205F || n = 0x3000

/-- Go `strings.TrimSpace`, on the character list: drop `unicode.IsSpace`
characters from both ends. -/
def goTrim (l : List Char) : List Char :=
  ((l.dropWhile goIsSpace).reverse.dropWhile goIsSpace).reverse

/-- Go `strings.Split(s, sep)` for a one-character separator, on the
character list.  Always returns at least one group; `k` separators give
`k+1` groups. -/
def splitOnChar (sep : Char) : List Char → List (List Char)
  | [] => [[]]
  | c :: cs =>
    if c = sep then
      [] :: splitOnChar sep cs
    else
      match splitOnChar sep cs with
      | [] => [[c]]
      | g :: gs => (c :: g) :: gs

/-- Go `path.IsAbs` / `filepath.IsAbs` (Linux): the path starts with `/`. -/
def goIsAbs (s : String) : Bool :=
  match s.data with
  | '/' :: _ => true
  | _ => false

/-- `envValid` from `runtimetest.go`: split the entry on `=`; at least two
parts are required; every character of the whitespace-trimmed first part
must be a digit, a letter, or `_`. -/
def envValid (env : String) : Bool :=
  match splitOnChar '=' env.data with
  | [] => false
  | [_] => false
  | k :: _ :: _ =>
    (goTrim k).all (fun ch => goIsDigit ch || goIsLetter ch || ch = '_')

theorem splitOnChar_ne_nil (sep : Char) (l : List Char) :
    splitOnChar sep l ≠ [] := by
  cases l with
  | nil => simp [splitOnChar]
  | cons c cs =>
    simp only [splitOnChar]
    split
    · simp
    · split <;> simp

theorem splitOnChar_two_iff_mem (sep : Char) (l : List Char) :
    (∃ a b gs, splitOnChar sep l = a :: b :: gs) ↔ sep ∈ l := by
  induction l with
  | nil => simp [splitOnChar]
  | cons c cs ih =>
    simp only [splitOnChar, List.mem_cons]
    by_cases hc : c = sep
    · simp only [hc, if_pos rfl]
      constructor
      · intro _; simp
      · intro _
        rcases h : splitOnChar sep cs with _ | ⟨g, gs⟩
        · exact absurd h (splitOnChar_ne_nil sep cs)
        · exact ⟨[], g, gs, rfl⟩
    · simp only [if_neg hc]
      rcases h : splitOnChar sep cs with _ | ⟨g, gs⟩
      · exact absurd h (splitOnChar_ne_nil sep cs)
      · cases gs with
        | nil =>
          simp only [h] at ih
          constructor
          · rintro ⟨a, b, gs', hab⟩
            exact absurd hab (by simp)
          · rintro (h1 | h2)
            · exact absurd h1.symm hc
            · rcases ih.mpr h2 with ⟨a, b, gs', hab⟩
              exact absurd hab (by simp)
        | cons g2 gs2 =>
          simp only [h] at ih
          constructor
          · intro _
            exact Or.inr (ih.mp ⟨g, g2, gs2, rfl⟩)
          · intro _
            exact ⟨c :: g, g2, gs2, rfl⟩

theorem splitOnChar_head (sep : Char) (l : List Char) :
    ∃ gs, splitOnChar sep l = l.takeWhile (fun c => !(c = sep : Bool)) :: gs := by
  induction l with
  | nil => exact ⟨[], rfl⟩
  | cons c cs ih =>
    by_cases hc : c = sep
    · refine ⟨splitOnChar sep cs, ?_⟩
      simp [splitOnChar, hc, List.takeWhile]
    · rcases ih with ⟨gs, hgs⟩
      refine ⟨gs, ?_⟩
      simp [splitOnChar, hc, hgs, List.takeWhile]

/-- Interleave the separator back between the groups (inverse direction of
`splitOnChar`). -/
def joinSep (sep : Char) : List (List Char) → List Char
  | [] => []
  | [g] => g
  | g :: g2 :: gs => g ++ sep :: joinSep sep (g2 :: gs)

theorem joinSep_splitOnChar (sep : Char) (l : List Char) :
    joinSep sep (splitOnChar sep l) = l := by
  induction l with
  | nil => rfl
  | cons c cs ih =>
    by_cases hc : c = sep
    · rcases h : splitOnChar sep cs with _ | ⟨g, gs⟩
      · exact absurd h (splitOnChar_ne_nil sep cs)
      · rw [h] at ih
        simp [splitOnChar, hc, h, joinSep, ih]
    · rcases h : splitOnChar sep cs with _ | ⟨g, gs⟩
      · exact absurd h (splitOnChar_ne_nil sep cs)
      · rw [h] at ih
        cases gs with
        | nil =>
          simp [joinSep] at ih
          simp [splitOnChar, hc, h, joinSep, ih]
        | cons g2 gs2 =>
          simp [joinSep] at ih ⊢
          simp [splitOnChar, hc, h, joinSep, ih]

theorem splitOnChar_of_not_mem (sep : Char) (l : List Char)
    (h : sep ∉ l) : splitOnChar sep l = [l] := by
  induction l with
  | nil => rfl
  | cons c cs ih =>
    have hc : ¬(c = sep) := fun he => h (he ▸ List.mem_cons_self c cs)
    have hcs : sep ∉ cs := fun hm => h (List.mem_cons_of_mem c hm)
    simp [splitOnChar, hc, ih hcs]

theorem splitOnChar_append (sep : Char) (a rest : List Char)
    (h : sep ∉ a) :
    splitOnChar sep (a ++ sep :: rest) = a :: splitOnChar sep rest := by
  induction a with
  | nil => simp [splitOnChar]
  | cons c cs ih =>
    have hc : ¬(c = sep) := fun he => h (he ▸ List.mem_cons_self c cs)
    have hcs : sep ∉ cs := fun hm => h (List.mem_cons_of_mem c hm)
    rw [List.cons_append]
    simp only [splitOnChar, if_neg hc, ih hcs]

/-- The version check from `checkSemVer`: the Go code matches the anchored
RE2 pattern `^(\d+)?\.(\d+)?\.(\d+)?$` against the version string.  The
language of that pattern is `\d* "." \d* "." \d*`: exactly two dots, and
every other character an ASCII digit.  Implemented, as the language
prescribes, by splitting on `.` and requiring three all-digit groups. -/
def semverValid (version : String) : Bool :=
  match splitOnChar '.' version.data with
  | [a, b, c] => a.all reDigit && b.all reDigit && c.all reDigit
  | _ => false

/-- Declarative reading of the same pattern, written from the spec's words:
three optional numeric segments with both dots mandatory. -/
def SemverPattern (version : String) : Prop :=
  ∃ a b c : List Char,
    version.data = a ++ '.' :: (b ++ '.' :: c) ∧
    (∀ ch ∈ a, reDigit ch = true) ∧
    (∀ ch ∈ b, reDigit ch = true) ∧
    (∀ ch ∈ c, reDigit ch = true)

theorem reDigit_ne_dot {ch : Char} (h : reDigit ch = true) : ¬(ch = '.') := by
  intro he
  subst he
  simp [reDigit] at h

theorem semverValid_iff (v : String) :
    semverValid v = true ↔ SemverPattern v := by
  constructor
  · intro h
    unfold semverValid at h
    rcases hs : splitOnChar '.' v.data with _ | ⟨a, _ | ⟨b, _ | ⟨c, _ | _⟩⟩⟩ <;>
      rw [hs] at h
    · exact absurd h Bool.false_ne_true
    · exact absurd h Bool.false_ne_true
    · exact absurd h Bool.false_ne_true
    · simp only [List.all_eq_true, Bool.and_eq_true] at h
      refine ⟨a, b, c, ?_, h.1.1, h.1.2, h.2⟩
      have := joinSep_splitOnChar '.' v.data
      rw [hs] at this
      simpa [joinSep] using this.symm
    · exact absurd h Bool.false_ne_true
  · rintro ⟨a, b, c, hv, ha, hb, hc⟩
    have hna : '.' ∉ a := fun hm => reDigit_ne_dot (ha _ hm) rfl
    have hnb : '.' ∉ b := fun hm => reDigit_ne_dot (hb _ hm) rfl
    have hnc : '.' ∉ c := fun hm => reDigit_ne_dot (hc _ hm) rfl
    unfold semverValid
    rw [hv, splitOnChar_append _ _ _ hna, splitOnChar_append _ _ _ hnb,
      splitOnChar_of_not_mem _ _ hnc]
    simp only [List.all_eq_true, Bool.and_eq_true]
    exact ⟨⟨ha, hb⟩, hc⟩

/-! ## Document model

The parsed configuration document (`rspec.Spec` from the runtime-spec
dependency), restricted to the fields the validation code consults.
String constants carry the values they have in that dependency. -/

structure Platform where
  os : String
  arch : String
deriving DecidableEq

structure IDMapping where
  hostID : Nat
  containerID : Nat
  size : Nat
deriving DecidableEq

structure Namespace where
  type : String
  path : String
deriving DecidableEq

/-- A device entry; only the fields `deviceValid` consults (`Type`,
`Major`, `Minor`) are modelled.  `Major`/`Minor` are `int64` in the
source, hence `Int` here. -/
structure Device where
  type : String
  major : Int
  minor : Int
deriving DecidableEq

structure Arg where
  index : Nat
  value : Nat
  valueTwo : Nat
  op : String
deriving DecidableEq

structure Syscall where
  name : String
  action : String
  args : List Arg
deriving DecidableEq

structure Seccomp where
  defaultAction : String
  architectures : List String
  syscalls : List Syscall
deriving DecidableEq

structure Rlimit where
  type : String
  hard : Nat
  soft : Nat
deriving DecidableEq

structure Process where
  cwd : String
  env : List String
  capabilities : List String
  rlimits : List Rlimit
  apparmorProfile : String
deriving DecidableEq

structure Hook where
  path : String
  args : List String
  env : List String
deriving DecidableEq

structure Hooks where
  prestart : List Hook
  poststart : List Hook
  poststop : List Hook
deriving DecidableEq

structure Linux where
  uidMappings : List IDMapping
  gidMappings : List IDMapping
  namespaces : List Namespace
  devices : List Device
  seccomp : Option Seccomp
  rootfsPropagation : String
deriving DecidableEq

structure Root where
  path : String
  readonly : Bool
deriving DecidableEq

/-- The root configuration document (`rspec.Spec`). -/
structure Spec where
  version : String
  platform : Platform
  root : Root
  process : Process
  hostname : String
  hooks : Hooks
  linux : Linux
deriving DecidableEq

/-! Constants from the runtime-spec dependency. -/

def PIDNamespace : String := "pid"
def NetworkNamespace : String := "network"
def MountNamespace : String := "mount"
def IPCNamespace : String := "ipc"
def UTSNamespace : String := "uts"
def UserNamespace : String := "user"

def ActKill : String := "SCMP_ACT_KILL"
def ActTrap : String := "SCMP_ACT_TRAP"
def ActErrno : String := "SCMP_ACT_ERRNO"
def ActTrace : String := "SCMP_ACT_TRACE"
def ActAllow : String := "SCMP_ACT_ALLOW"

def OpNotEqual : String := "SCMP_CMP_NE"
def OpLessEqual : String := "SCMP_CMP_LE"
def OpEqualTo : String := "SCMP_CMP_EQ"
def OpGreaterEqual : String := "SCMP_CMP_GE"
def OpGreaterThan : String := "SCMP_CMP_GT"
def OpMaskedEqual : String := "SCMP_CMP_MASKED_EQ"

def ArchX86 : String := "SCMP_ARCH_X86"
def ArchX86_64 : String := "SCMP_ARCH_X86_64"
def ArchX32 : String := "SCMP_ARCH_X32"
def ArchARM : String := "SCMP_ARCH_ARM"
def ArchAARCH64 : String := "SCMP_ARCH_AARCH64"
def ArchMIPS : String := "SCMP_ARCH_MIPS"
def ArchMIPS64 : String := "SCMP_ARCH_MIPS64"
def ArchMIPS64N32 : String := "SCMP_ARCH_MIPS64N32"
def ArchMIPSEL : String := "SCMP_ARCH_MIPSEL"
def ArchMIPSEL64 : String := "SCMP_ARCH_MIPSEL64"
def ArchMIPSEL64N32 : String := "SCMP_ARCH_MIPSEL64N32"

/-- The `defaultRlimits` allow-list, verbatim from `runtimetest.go`. -/
def defaultRlimits : List String :=
  ["RLIMIT_CPU", "RLIMIT_FSIZE", "RLIMIT_DATA", "RLIMIT_STACK",
   "RLIMIT_CORE", "RLIMIT_RSS", "RLIMIT_NPROC", "RLIMIT_NOFILE",
   "RLIMIT_MEMLOCK", "RLIMIT_AS", "RLIMIT_LOCKS", "RLIMIT_SIGPENDING",
   "RLIMIT_MSGQUEUE", "RLIMIT_NICE", "RLIMIT_RTPRIO", "RLIMIT_RTTIME"]

/-- Modelled from the spec: `defaultCaps` is defined in a repository file
that is not present under `src/`; the spec says only that it is "a fixed
allow-list of recognized capability identifiers".  The standard Linux
capability names are used here; no claim depends on the list's contents. -/
def defaultCaps : List String :=
  ["CAP_CHOWN", "CAP_DAC_OVERRIDE", "CAP_DAC_READ_SEARCH", "CAP_FOWNER",
   "CAP_FSETID", "CAP_KILL", "CAP_SETGID", "CAP_SETUID", "CAP_SETPCAP",
   "CAP_LINUX_IMMUTABLE", "CAP_NET_BIND_SERVICE", "CAP_NET_BROADCAST",
   "CAP_NET_ADMIN", "CAP_NET_RAW", "CAP_IPC_LOCK", "CAP_IPC_OWNER",
   "CAP_SYS_MODULE", "CAP_SYS_RAWIO", "CAP_SYS_CHROOT", "CAP_SYS_PTRACE",
   "CAP_SYS_PACCT", "CAP_SYS_ADMIN", "CAP_SYS_BOOT", "CAP_SYS_NICE",
   "CAP_SYS_RESOURCE", "CAP_SYS_TIME", "CAP_SYS_TTY_CONFIG", "CAP_MKNOD",
   "CAP_LEASE", "CAP_AUDIT_WRITE", "CAP_AUDIT_CONTROL", "CAP_SETFCAP",
   "CAP_MAC_OVERRIDE", "CAP_MAC_ADMIN", "CAP_SYSLOG", "CAP_WAKE_ALARM",
   "CAP_BLOCK_SUSPEND"]

/-! ## Validation errors

One constructor per `fmt.Errorf` site of the validation code, carrying the
formatted arguments. -/

inductive Err where
  /-- `checkMandatoryUnit`: `'%s.%s' should not be empty.` -/
  | fieldEmptyUnit (parent field : String)
  /-- `checkMandatory`, nil struct-pointer branch: `'%s.%s' should not be empty` -/
  | fieldEmpty (parent field : String)
  /-- `checkSemVer`: `%q is not a valid version format ...` -/
  | invalidVersion (version : String)
  /-- `checkPlatform`: `Combination of %q and %q is invalid.` -/
  | invalidCombination (os arch : String)
  /-- `checkPlatform`: `Operation system %q of the bundle is not supported yet.` -/
  | unsupportedOS (os : String)
  /-- `checkEventHooks`: `The %s hook %v: is not absolute path` -/
  | hookNotAbs (hookType path : String)
  /-- `checkEventHooks`: `Cannot find %s hook: %v` -/
  | cannotFindHook (hookType path : String)
  /-- `checkEventHooks`: `The %s hook %v: is not executable` -/
  | hookNotExecutable (hookType path : String)
  /-- `checkEventHooks`: `Env %q for hook %v is in the invalid form.` -/
  | invalidHookEnv (env path : String)
  /-- `checkProcess`: `cwd %q is not an absolute path` -/
  | cwdNotAbs (cwd : String)
  /-- `checkProcess`: `env %q should be in the form of 'key=value'. ...` -/
  | invalidEnv (env : String)
  /-- `checkProcess`: `capability %q is not valid, man capabilities(7)` -/
  | invalidCapability (capability : String)
  /-- `checkProcess`: `rlimit type %q is invalid.` -/
  | invalidRlimit (type : String)
  /-- `checkProcess`: the error returned by `os.Stat` on the apparmor
  profile path is appended as-is. -/
  | apparmorProfileMissing (path : String)
  /-- `checkLinux`: `Only 5 UID mappings are allowed ...` -/
  | tooManyUIDMappings
  /-- `checkLinux`: `Only 5 GID mappings are allowed ...` -/
  | tooManyGIDMappings
  /-- `checkLinux`: `namespace %v is invalid.` -/
  | invalidNamespace (ns : Namespace)
  /-- `checkLinux`: `On Linux, hostname requires a new UTS namespace ...` -/
  | hostnameRequiresUTS
  /-- `checkLinux`: `device %v is invalid.` -/
  | invalidDevice (d : Device)
  /-- `checkLinux`: `rootfsPropagation must be empty or one of ...` -/
  | invalidRootfsPropagation
  /-- `checkSeccomp`: `seccomp defaultAction %q is invalid.` -/
  | invalidSeccompAction (action : String)
  /-- `checkSeccomp`: `syscall %v is invalid.` -/
  | invalidSyscall (s : Syscall)
  /-- `checkSeccomp`: `seccomp architecture %q is invalid` -/
  | invalidSeccompArch (arch : String)
deriving DecidableEq

/-- The host filesystem as seen through `os.Stat`: maps a path to the file's
permission bits when the file exists. -/
structure FS where
  stat : String → Option Nat

/-- The filesystem with no files: every `stat` fails. -/
def emptyFS : FS := ⟨fun _ => none⟩

/-! ## Semantic rule checkers -/

/-- `checkSemVer`. -/
def checkSemVer (doc : Spec) (_rootfs : String) : List Err :=
  if semverValid doc.version then [] else [.invalidVersion doc.version]

/-- The `validCombins` map literal of `checkPlatform`, in source order.
(Go iterates map keys in unspecified order; the keys are pairwise distinct,
so the checker's result does not depend on the order.) -/
def validCombins : List (String × List String) :=
  [("darwin", ["386", "amd64", "arm", "arm64"]),
   ("dragonfly", ["amd64"]),
   ("freebsd", ["386", "amd64", "arm"]),
   ("linux", ["386", "amd64", "arm", "arm64", "ppc64", "ppc64le", "mips64", "mips64le"]),
   ("netbsd", ["386", "amd64", "arm"]),
   ("openbsd", ["386", "amd64", "arm"]),
   ("plan9", ["386", "amd64"]),
   ("solaris", ["amd64"]),
   ("windows", ["386", "amd64"])]

/-- The loop body of `checkPlatform`: find the entry for the document's OS;
if found, accept exactly the listed architectures, else report the OS. -/
def platformLoop (combins : List (String × List String)) (os arch : String) : List Err :=
  match combins with
  | [] => [.unsupportedOS os]
  | (o, archs) :: rest =>
    if o = os then
      if archs.contains arch then [] else [.invalidCombination os arch]
    else
      platformLoop rest os arch

/-- `checkPlatform`. -/
def checkPlatform (doc : Spec) (_rootfs : String) : List Err :=
  platformLoop validCombins doc.platform.os doc.platform.arch

/-- `capValid`: membership in the `defaultCaps` allow-list. -/
def capValid (capability : String) : Bool :=
  defaultCaps.contains capability

/-- `rlimitValid`: membership in the `defaultRlimits` allow-list. -/
def rlimitValid (rlimit : String) : Bool :=
  defaultRlimits.contains rlimit

/-- `namespaceValid`: the switch over the six namespace kinds. -/
def namespaceValid (ns : Namespace) : Bool :=
  if ns.type = PIDNamespace then true
  else if ns.type = NetworkNamespace then true
  else if ns.type = MountNamespace then true
  else if ns.type = IPCNamespace then true
  else if ns.type = UTSNamespace then true
  else if ns.type = UserNamespace then true
  else false

/-- `deviceValid`: the switch over the device kind, with the major/minor
constraints for kinds `u` and `p`. -/
def deviceValid (d : Device) : Bool :=
  match d.type with
  | "b" => true
  | "c" => true
  | "u" =>
    if d.major ≤ 0 then false
    else if d.minor ≤ 0 then false
    else true
  | "p" =>
    if d.major > 0 || d.minor > 0 then false else true
  | _ => false

/-- `seccompActionValid`: empty or one of the five action tokens. -/
def seccompActionValid (secc : String) : Bool :=
  if secc = "" then true
  else if secc = ActKill then true
  else if secc = ActTrap then true
  else if secc = ActErrno then true
  else if secc = ActTrace then true
  else if secc = ActAllow then true
  else false

/-- The inner switch of `syscallValid` over one argument's comparison
operator. -/
def argOpValid (a : Arg) : Bool :=
  if a.op = OpNotEqual then true
  else if a.op = OpLessEqual then true
  else if a.op = OpEqualTo then true
  else if a.op = OpGreaterEqual then true
  else if a.op = OpGreaterThan then true
  else if a.op = OpMaskedEqual then true
  else false

/-- `syscallValid`: the rule's action must be valid and every argument's
operator recognized. -/
def syscallValid (s : Syscall) : Bool :=
  if !seccompActionValid s.action then false
  else s.args.all argOpValid

/-- The architecture switch of `checkSeccomp`: the eleven accepted tokens,
in source order. -/
def seccompArchValid (a : String) : Bool :=
  if a = ArchX86 then true
  else if a = ArchX86_64 then true
  else if a = ArchX32 then true
  else if a = ArchARM then true
  else if a = ArchAARCH64 then true
  else if a = ArchMIPS then true
  else if a = ArchMIPS64 then true
  else if a = ArchMIPS64N32 then true
  else if a = ArchMIPSEL then true
  else if a = ArchMIPSEL64 then true
  else if a = ArchMIPSEL64N32 then true
  else false

/-- The architecture tokens `checkSeccomp` accepts, as a list. -/
def archList : List String :=
  [ArchX86, ArchX86_64, ArchX32, ArchARM, ArchAARCH64, ArchMIPS,
   ArchMIPS64, ArchMIPS64N32, ArchMIPSEL, ArchMIPSEL64, ArchMIPSEL64N32]

/-- `checkSeccomp`: default action, then the syscall rules, then the
architecture tokens, in source order. -/
def checkSeccomp (s : Seccomp) : List Err :=
  (if !seccompActionValid s.defaultAction
   then [.invalidSeccompAction s.defaultAction] else [])
  ++ s.syscalls.filterMap
      (fun sc => if syscallValid sc then none else some (.invalidSyscall sc))
  ++ s.architectures.filterMap
      (fun a => if seccompArchValid a then none else some (.invalidSeccompArch a))

/-- `checkProcess`: cwd absoluteness, environment entries, capabilities,
rlimit types, and — when an apparmor profile is named — a host `stat` of
`<rootfs>/etc/apparmor.d/<profile>` (the error returned by a failed stat
is appended; `path.Join` is modelled as plain concatenation, which agrees
with it on the clean paths involved). -/
def checkProcess (fs : FS) (doc : Spec) (rootfs : String) : List Err :=
  (if !goIsAbs doc.process.cwd then [.cwdNotAbs doc.process.cwd] else [])
  ++ doc.process.env.filterMap
      (fun e => if envValid e then none else some (.invalidEnv e))
  ++ doc.process.capabilities.filterMap
      (fun c => if capValid c then none else some (.invalidCapability c))
  ++ doc.process.rlimits.filterMap
      (fun r => if rlimitValid r.type then none else some (.invalidRlimit r.type))
  ++ (if doc.process.apparmorProfile.length > 0 then
        match fs.stat (rootfs ++ "/etc/apparmor.d/" ++ doc.process.apparmorProfile) with
        | none => [.apparmorProfileMissing
            (rootfs ++ "/etc/apparmor.d/" ++ doc.process.apparmorProfile)]
        | some _ => []
      else [])

/-- The body of `checkEventHooks` for one hook.  When host verification is
on and `os.Stat` fails, the Go code appends the cannot-find error and then
calls `fi.Mode()` on the nil `FileInfo`, which panics: the panic is the
`Except.error` outcome, and the locally accumulated errors are lost with
it, exactly as a panic loses the local `errs` slice. -/
def checkOneHook (hookType : String) (hooksCheck : Bool) (fs : FS) (hook : Hook) :
    Except String (List Err) :=
  let absErrs : List Err :=
    if !goIsAbs hook.path then [.hookNotAbs hookType hook.path] else []
  let envErrs : List Err :=
    hook.env.filterMap
      (fun e => if envValid e then none else some (.invalidHookEnv e hook.path))
  if hooksCheck then
    match fs.stat hook.path with
    | none => .error "runtime error: invalid memory address or nil pointer dereference"
    | some mode =>
      .ok (absErrs
        ++ (if mode &&& 0o111 = 0 then [.hookNotExecutable hookType hook.path] else [])
        ++ envErrs)
  else
    .ok (absErrs ++ envErrs)

/-- `checkEventHooks`: fold `checkOneHook` over the hook list; a panic in
one hook aborts the whole loop (no later hook is examined). -/
def checkEventHooks (hookType : String) (hooksCheck : Bool) (fs : FS) :
    List Hook → Except String (List Err)
  | [] => .ok []
  | hook :: rest => do
    let es ← checkOneHook hookType hooksCheck fs hook
    let esRest ← checkEventHooks hookType hooksCheck fs rest
    return es ++ esRest

/-- `checkHooks`: pre-start, then post-start, then post-stop. -/
def checkHooks (hooksCheck : Bool) (fs : FS) (doc : Spec) (_rootfs : String) :
    Except String (List Err) := do
  let pre ← checkEventHooks "pre-start" hooksCheck fs doc.hooks.prestart
  let post ← checkEventHooks "post-start" hooksCheck fs doc.hooks.poststart
  let stop ← checkEventHooks "post-stop" hooksCheck fs doc.hooks.poststop
  return pre ++ post ++ stop

/-- The namespace loop of `checkLinux`: report invalid entries; a valid
entry of uts kind sets the `utsExists` flag.  Returns the errors in list
order together with the final flag. -/
def nsCheckAux (l : List Namespace) (utsExists : Bool) : List Err × Bool :=
  match l with
  | [] => ([], utsExists)
  | ns :: rest =>
    if !namespaceValid ns then
      let (es, u) := nsCheckAux rest utsExists
      (.invalidNamespace ns :: es, u)
    else
      nsCheckAux rest (utsExists || ns.type = UTSNamespace)

/-- The rootfs-propagation switch of `checkLinux`. -/
def rootfsPropagationValid (s : String) : Bool :=
  match s with
  | "" => true
  | "private" => true
  | "rprivate" => true
  | "slave" => true
  | "rslave" => true
  | "shared" => true
  | "rshared" => true
  | _ => false

/-- `checkLinux`: UID/GID mapping caps, namespaces, the hostname/UTS rule,
devices, the optional seccomp profile, and rootfs propagation, in source
order. -/
def checkLinux (doc : Spec) (_rootfs : String) : List Err :=
  let uidErrs : List Err :=
    if doc.linux.uidMappings.length > 5 then [.tooManyUIDMappings] else []
  let gidErrs : List Err :=
    if doc.linux.gidMappings.length > 5 then [.tooManyGIDMappings] else []
  let nsres := nsCheckAux doc.linux.namespaces false
  let hostErrs : List Err :=
    if doc.platform.os = "linux" && !nsres.2 && !(doc.hostname = "") then
      [.hostnameRequiresUTS]
    else []
  let devErrs : List Err :=
    doc.linux.devices.filterMap
      (fun d => if deviceValid d then none else some (.invalidDevice d))
  let seccompErrs : List Err :=
    match doc.linux.seccomp with
    | none => []
    | some s => checkSeccomp s
  let propErrs : List Err :=
    if rootfsPropagationValid doc.linux.rootfsPropagation then []
    else [.invalidRootfsPropagation]
  uidErrs ++ gidErrs ++ nsres.1 ++ hostErrs ++ devErrs ++ seccompErrs ++ propErrs

/-! ## Generic mandatory-field walker

`checkMandatory`/`checkMandatoryUnit` traverse the document through Go
reflection.  `GoVal` models the reflection view of a value: its kind
(pointer / string / slice / map / struct / other scalar) plus, for a
pointer, whether its static element type is a struct (what `isStructPtr`
inspects).  A struct field carries its name and whether its json tag
contains `omitempty`. -/

inductive GoVal where
  /-- A pointer value: whether its element type is a struct, and the
  pointee (`none` for a nil pointer). -/
  | ptr (elemIsStruct : Bool) (v : Option GoVal)
  | str (s : String)
  | slice (elems : List GoVal)
  /-- A map, by its values (keys are not walked); a nil map is the empty
  list, matching `IsNil || Len == 0` in the source. -/
  | mp (vals : List GoVal)
  /-- A struct: its type name and its fields (name, omitempty, value). -/
  | strct (name : String) (fields : List (String × Bool × GoVal))
  | num (n : Int)
  | boolean (b : Bool)

mutual

/-- `checkMandatory`: dereference a struct pointer, walk a struct's
fields, return nothing for any other kind.  (On a nil struct pointer the
Go code would panic reading fields of an invalid `reflect.Value`; the
walker is never handed one by `checkMandatoryFields`, and the model
returns no errors there.) -/
def checkMandatory : GoVal → List Err
  | .ptr true (some v) =>
    match v with
    | .strct name fields => walkFields name fields
    | _ => []
  | .strct name fields => walkFields name fields
  | _ => []
termination_by v => sizeOf v
decreasing_by all_goals (simp_wf <;> omega)

/-- The field loop of `checkMandatory`: a nil struct pointer is reported
when required; a struct or non-nil struct pointer is recursed into; every
other field goes through `checkMandatoryUnit`. -/
def walkFields (parent : String) : List (String × Bool × GoVal) → List Err
  | [] => []
  | (fname, omitempty, fval) :: rest =>
    (match fval with
     | .ptr true none =>
       if !omitempty then [.fieldEmpty parent fname] else []
     | .ptr true (some v) => checkMandatory (.ptr true (some v))
     | .strct name fields => checkMandatory (.strct name fields)
     | .ptr false v => checkMandatoryUnit (.ptr false v) fname omitempty parent
     | .str s => checkMandatoryUnit (.str s) fname omitempty parent
     | .slice es => checkMandatoryUnit (.slice es) fname omitempty parent
     | .mp vs => checkMandatoryUnit (.mp vs) fname omitempty parent
     | .num n => checkMandatoryUnit (.num n) fname omitempty parent
     | .boolean b => checkMandatoryUnit (.boolean b) fname omitempty parent)
    ++ walkFields parent rest
termination_by l => sizeOf l
decreasing_by all_goals (simp_wf <;> omega)

/-- `checkMandatoryUnit`: the kind switch.  Pointer, string, slice and map
kinds get an emptiness check when the field is mandatory (no `omitempty`
in the tag); slice and map elements are then walked recursively; every
other kind falls to the empty default branch. -/
def checkMandatoryUnit (field : GoVal) (fname : String) (omitempty : Bool)
    (parent : String) : List Err :=
  match field with
  | .ptr _ v =>
    if !omitempty && v.isNone then [.fieldEmptyUnit parent fname] else []
  | .str s =>
    if !omitempty && s.length = 0 then [.fieldEmptyUnit parent fname] else []
  | .slice elems =>
    if !omitempty && elems.length = 0 then [.fieldEmptyUnit parent fname]
    else elemsErrs elems
  | .mp vals =>
    if !omitempty && vals.length = 0 then [.fieldEmptyUnit parent fname]
    else elemsErrs vals
  | _ => []
termination_by sizeOf field
decreasing_by all_goals simp_wf

/-- The element loop shared by the slice and map branches of
`checkMandatoryUnit`: each element goes back through `checkMandatory`. -/
def elemsErrs : List GoVal → List Err
  | [] => []
  | v :: rest => checkMandatory v ++ elemsErrs rest
termination_by l => sizeOf l
decreasing_by all_goals (simp_wf <;> omega)

end

/-- Modelled from the spec: the reflection view of the document that
`checkMandatoryFields` walks.  The concrete struct layout and its
`omitempty` tags live in the external runtime-spec dependency, not in this
repository; this rendering follows §3 of the spec (every field required
unless marked optional, with hostname and the list/pointer fields of the
nested records optional).  No claim's verdict depends on this rendering:
the pipeline claims use `checkMandatoryFields` only as an opaque first
stage, and the walker claims are about `checkMandatoryUnit` itself. -/
def specToGoVal (doc : Spec) : GoVal :=
  .strct "Spec"
    [("Version", false, .str doc.version),
     ("Platform", false, .strct "Platform"
        [("OS", false, .str doc.platform.os),
         ("Arch", false, .str doc.platform.arch)]),
     ("Root", false, .strct "Root"
        [("Path", false, .str doc.root.path),
         ("Readonly", true, .boolean doc.root.readonly)]),
     ("Process", false, .strct "Process"
        [("Cwd", false, .str doc.process.cwd),
         ("Env", true, .slice (doc.process.env.map .str)),
         ("Capabilities", true, .slice (doc.process.capabilities.map .str)),
         ("Rlimits", true, .slice (doc.process.rlimits.map (fun r =>
            .strct "Rlimit"
              [("Type", false, .str r.type),
               ("Hard", true, .num r.hard),
               ("Soft", true, .num r.soft)]))),
         ("ApparmorProfile", true, .str doc.process.apparmorProfile)]),
     ("Hostname", true, .str doc.hostname),
     ("Hooks", true, .strct "Hooks"
        [("Prestart", true, .slice (doc.hooks.prestart.map hookToGoVal)),
         ("Poststart", true, .slice (doc.hooks.poststart.map hookToGoVal)),
         ("Poststop", true, .slice (doc.hooks.poststop.map hookToGoVal))]),
     ("Linux", true, .strct "Linux"
        [("UIDMappings", true, .slice (doc.linux.uidMappings.map idMapToGoVal)),
         ("GIDMappings", true, .slice (doc.linux.gidMappings.map idMapToGoVal)),
         ("Namespaces", true, .slice (doc.linux.namespaces.map (fun ns =>
            .strct "Namespace"
              [("Type", false, .str ns.type),
               ("Path", true, .str ns.path)]))),
         ("Devices", true, .slice (doc.linux.devices.map (fun d =>
            .strct "Device"
              [("Type", false, .str d.type),
               ("Major", true, .num d.major),
               ("Minor", true, .num d.minor)]))),
         ("Seccomp", true, .ptr true (doc.linux.seccomp.map (fun s =>
            .strct "Seccomp"
              [("DefaultAction", false, .str s.defaultAction),
               ("Architectures", true, .slice (s.architectures.map .str)),
               ("Syscalls", true, .slice (s.syscalls.map (fun sc =>
                  .strct "Syscall"
                    [("Name", false, .str sc.name),
                     ("Action", false, .str sc.action)])))]))),
         ("RootfsPropagation", true, .str doc.linux.rootfsPropagation)])]
where
  hookToGoVal (h : Hook) : GoVal :=
    .strct "Hook"
      [("Path", false, .str h.path),
       ("Args", true, .slice (h.args.map .str)),
       ("Env", true, .slice (h.env.map .str))]
  idMapToGoVal (m : IDMapping) : GoVal :=
    .strct "IDMapping"
      [("HostID", true, .num m.hostID),
       ("ContainerID", true, .num m.containerID),
       ("Size", true, .num m.size)]

/-- `checkMandatoryFields`: run the generic walker over the document. -/
def checkMandatoryFields (doc : Spec) (_rootfs : String) : List Err :=
  checkMandatory (specToGoVal doc)

/-! ## Validation pipeline

The `Action` of the `validate` command (after the structural preconditions:
readable UTF-8 config, existing rootfs directory) builds the fixed checker
list and loops over it, logging every error of every checker and setting
the exit flag when any error was seen.  The flag `ret` below is the `ret`
variable of the source: `0` until some checker returns a non-empty list,
`1` afterwards.  Each checker returns `Except` because `checkHooks` can
panic (see `checkOneHook`); the five pure checkers always return `.ok`. -/

/-- The fixed checker list of `bundleValidateCommand`:
mandatory-fields, version, platform, process, linux, hooks. -/
def checks (hooksCheck : Bool) (fs : FS) :
    List (Spec → String → Except String (List Err)) :=
  [fun doc rootfs => .ok (checkMandatoryFields doc rootfs),
   fun doc rootfs => .ok (checkSemVer doc rootfs),
   fun doc rootfs => .ok (checkPlatform doc rootfs),
   fun doc rootfs => .ok (checkProcess fs doc rootfs),
   fun doc rootfs => .ok (checkLinux doc rootfs),
   fun doc rootfs => checkHooks hooksCheck fs doc rootfs]

/-- The checker loop: accumulate every checker's errors in order (the log
stream) and update the exit flag; a panic inside a checker aborts the
loop. -/
def runChecksAux (cs : List (Spec → String → Except String (List Err)))
    (doc : Spec) (rootfs : String) (acc : List Err × Nat) :
    Except String (List Err × Nat) :=
  match cs with
  | [] => .ok acc
  | c :: rest => do
    let es ← c doc rootfs
    runChecksAux rest doc rootfs (acc.1 ++ es, if es.isEmpty then acc.2 else 1)

/-- The validation pipeline: run the six checkers in their fixed order.
Returns the ordered list of all logged errors and the final exit flag. -/
def bundleValidate (hooksCheck : Bool) (fs : FS) (doc : Spec) (rootfs : String) :
    Except String (List Err × Nat) :=
  runChecksAux (checks hooksCheck fs) doc rootfs ([], 0)

/-! ## Theorems settling the claims -/

/-- A fully compliant document, used as the base point for concrete
examples. -/
def goodDoc : Spec :=
  { version := "1.0.0"
    platform := { os := "linux", arch := "amd64" }
    root := { path := "rootfs", readonly := false }
    process := { cwd := "/", env := ["PATH=/usr/bin"], capabilities := [],
                 rlimits := [], apparmorProfile := "" }
    hostname := ""
    hooks := { prestart := [], poststart := [], poststop := [] }
    linux := { uidMappings := [], gidMappings := [], namespaces := [],
               devices := [], seccomp := none, rootfsPropagation := "" } }

/-- C3 (counterexample): the entry `"=value"`, whose KEY is empty, is
accepted by `envValid`: splitting on `=` yields `["", "value"]`, and the
character loop over the empty trimmed key passes vacuously.  The claim
says an empty KEY is rejected. -/
theorem envValid_accepts_empty_key : envValid "=value" = true := by decide

/-- C3 (amended): an environment entry is accepted iff it contains at
least one `=` and every character of the whitespace-trimmed segment before
the first `=` is a letter, digit, or underscore — the key may be empty.
With the concrete examples: `"PATH=/usr/bin"` and `"KEY_1=value"` are
accepted, `"KEY 1=value"` is rejected. -/
theorem envValid_characterization :
    envValid "PATH=/usr/bin" = true ∧
    envValid "KEY 1=value" = false ∧
    envValid "KEY_1=value" = true ∧
    ∀ e : String, envValid e = true ↔
      ('=' ∈ e.data ∧
        ∀ c ∈ goTrim (e.data.takeWhile (fun ch => !(ch = '=' : Bool))),
          (goIsDigit c || goIsLetter c || c = '_') = true) := by
  refine ⟨by decide, by decide, by decide, ?_⟩
  intro e
  obtain ⟨gs, hgs⟩ := splitOnChar_head '=' e.data
  unfold envValid
  rw [hgs]
  cases gs with
  | nil =>
    have hnm : ¬('=' ∈ e.data) := by
      intro hm
      rcases (splitOnChar_two_iff_mem '=' e.data).mpr hm with ⟨a, b, gs', hab⟩
      rw [hgs] at hab
      exact absurd hab (by simp)
    simp [hnm]
  | cons g2 gs2 =>
    have hm : '=' ∈ e.data :=
      (splitOnChar_two_iff_mem '=' e.data).mp ⟨_, g2, gs2, hgs⟩
    simp [hm, List.all_eq_true]

/-- C9: `envValid` trims whitespace from the key before checking its
characters, so `" KEY=value"` and `"KEY =value"` are accepted even though
the space is not a letter, a digit, or an underscore. -/
theorem envValid_trims_whitespace_around_key :
    envValid " KEY=value" = true ∧
    envValid "KEY =value" = true ∧
    goIsLetter ' ' = false ∧ goIsDigit ' ' = false ∧ ' ' ≠ '_' := by
  decide

/-- The device of kind `p` with a negative major number. -/
def pDeviceNegMajor : Device := { type := "p", major := -1, minor := 0 }

/-- C5 (counterexample): `deviceValid` accepts a kind-`p` device whose
major number is `-1`, not zero: the code only rejects strictly positive
major/minor for kind `p`, while the claim requires both to equal zero. -/
theorem deviceValid_claim_fails_on_negative_p :
    deviceValid pDeviceNegMajor = true ∧
    pDeviceNegMajor.type = "p" ∧ pDeviceNegMajor.major ≠ 0 := by decide

/-- C5 (amended): a device entry is valid iff its kind is one of b, c, u,
p, where kind u requires both major and minor strictly positive and kind p
requires both major and minor not strictly positive (zero or negative).
With the concrete examples: kind u with major=0 rejected, kind p with
major=minor=0 accepted, kind p with major=5 rejected. -/
theorem deviceValid_characterization :
    deviceValid { type := "u", major := 0, minor := 0 } = false ∧
    deviceValid { type := "p", major := 0, minor := 0 } = true ∧
    deviceValid { type := "p", major := 5, minor := 0 } = false ∧
    ∀ d : Device, deviceValid d = true ↔
      (d.type = "b" ∨ d.type = "c" ∨
       (d.type = "u" ∧ 0 < d.major ∧ 0 < d.minor) ∨
       (d.type = "p" ∧ d.major ≤ 0 ∧ d.minor ≤ 0)) := by
  refine ⟨by decide, by decide, by decide, ?_⟩
  intro d
  rcases d with ⟨t, ma, mi⟩
  simp only [deviceValid]
  split <;> rename_i h <;> simp_all

set_option maxHeartbeats 1000000 in
theorem seccompArchValid_iff_mem (a : String) :
    seccompArchValid a = true ↔ a ∈ archList := by
  simp only [seccompArchValid, archList]
  split_ifs with h1 h2 h3 h4 h5 h6 h7 h8 h9 h10 h11 <;>
    simp_all [List.mem_cons]

/-- C4 (counterexample): there is no fourteen-element set of tokens that
characterizes the architectures `checkSeccomp` accepts — the accepted set
(`seccompArchValid`) has exactly eleven elements, so the claim's "fixed
set of fourteen recognized identifiers" is wrong about this code. -/
theorem seccompArch_not_a_fourteen_token_set :
    ¬ ∃ l : List String, l.Nodup ∧ l.length = 14 ∧
        ∀ a : String, seccompArchValid a = true ↔ a ∈ l := by
  rintro ⟨l, hnd, hlen, hch⟩
  have hmem : ∀ a, a ∈ l ↔ a ∈ archList := fun a =>
    ⟨fun h => (seccompArchValid_iff_mem a).mp ((hch a).mpr h),
     fun h => (hch a).mp ((seccompArchValid_iff_mem a).mpr h)⟩
  have hfin : l.toFinset = archList.toFinset := by
    ext a
    simp only [List.mem_toFinset]
    exact hmem a
  have h14 : l.toFinset.card = 14 := by
    rw [List.toFinset_card_of_nodup hnd, hlen]
  have h11 : archList.toFinset.card = 11 := by
    rw [List.toFinset_card_of_nodup (by decide)]
    decide
  rw [hfin, h11] at h14
  exact absurd h14 (by decide)

/-- C4 (amended): the seccomp checker accepts a declared architecture
token iff it is one of a fixed set of ELEVEN recognized identifiers (x86,
x86_64, x32, arm, aarch64, and six MIPS variants); every token outside
that set produces an error. -/
theorem seccompArch_eleven_token_allowlist :
    archList.length = 11 ∧ archList.Nodup ∧
    (∀ a : String, seccompArchValid a = true ↔ a ∈ archList) ∧
    ∀ a : String,
      checkSeccomp { defaultAction := "", architectures := [a], syscalls := [] } =
        if seccompArchValid a then [] else [.invalidSeccompArch a] := by
  refine ⟨by decide, by decide, seccompArchValid_iff_mem, ?_⟩
  intro a
  cases h : seccompArchValid a <;>
    simp [checkSeccomp, seccompActionValid, h]

/-- C6: the version checker accepts exactly the strings in the language of
the anchored pattern `^(\d+)?\.(\d+)?\.(\d+)?$` (each numeric segment
optional, both dots mandatory): `"1.0.0"` and `"0.2.0"` pass with no
error, while `"1.0"`, `"v1.0.0"` and `"1.0.0-rc1"` each produce one
error. -/
theorem checkSemVer_pattern :
    checkSemVer { goodDoc with version := "1.0.0" } "" = [] ∧
    checkSemVer { goodDoc with version := "0.2.0" } "" = [] ∧
    checkSemVer { goodDoc with version := "1.0" } "" = [.invalidVersion "1.0"] ∧
    checkSemVer { goodDoc with version := "v1.0.0" } "" = [.invalidVersion "v1.0.0"] ∧
    checkSemVer { goodDoc with version := "1.0.0-rc1" } "" = [.invalidVersion "1.0.0-rc1"] ∧
    ∀ (doc : Spec) (rootfs : String),
      checkSemVer doc rootfs = [] ↔ SemverPattern doc.version := by
  refine ⟨by decide, by decide, by decide, by decide, by decide, ?_⟩
  intro doc rootfs
  rw [← semverValid_iff]
  unfold checkSemVer
  split <;> rename_i h <;> simp [h]

theorem platformLoop_os_not_found (l : List (String × List String))
    (os arch : String) (h : os ∉ l.map Prod.fst) :
    platformLoop l os arch = [.unsupportedOS os] := by
  induction l with
  | nil => rfl
  | cons p rest ih =>
    rcases p with ⟨o, archs⟩
    have ho : ¬(o = os) := by
      intro he
      exact h (by simp [he])
    have hrest : os ∉ rest.map Prod.fst := by
      intro hm
      exact h (by simp [hm])
    simp [platformLoop, ho, ih hrest]

theorem platformLoop_empty_iff (l : List (String × List String))
    (os arch : String) (hnd : (l.map Prod.fst).Nodup) :
    (platformLoop l os arch = [] ↔
      ∃ archs, (os, archs) ∈ l ∧ arch ∈ archs) := by
  induction l with
  | nil => simp [platformLoop]
  | cons p rest ih =>
    rcases p with ⟨o, archs⟩
    rw [List.map_cons, List.nodup_cons] at hnd
    by_cases ho : o = os
    · subst ho
      have hnr : ∀ archs2, (o, archs2) ∉ rest := by
        intro archs2 hm
        exact hnd.1 (List.mem_map.mpr ⟨(o, archs2), hm, rfl⟩)
      constructor
      · intro he
        simp only [platformLoop, if_pos rfl] at he
        refine ⟨archs, List.mem_cons_self _ _, ?_⟩
        by_cases hc : archs.contains arch
        · exact List.elem_iff.mp hc
        · rw [if_neg hc] at he
          exact absurd he (by simp)
      · rintro ⟨archs2, hm, ha⟩
        rcases List.mem_cons.mp hm with he | hr
        · rcases Prod.mk.injEq .. ▸ he with ⟨_, harchs⟩
          subst harchs
          simp only [platformLoop, if_pos rfl]
          simpa using ha
        · exact absurd hr (hnr archs2)
    · simp only [platformLoop, if_neg ho]
      rw [ih hnd.2]
      constructor
      · rintro ⟨archs2, hm, ha⟩
        exact ⟨archs2, List.mem_cons_of_mem _ hm, ha⟩
      · rintro ⟨archs2, hm, ha⟩
        rcases List.mem_cons.mp hm with he | hr
        · rcases Prod.mk.injEq .. ▸ he with ⟨he1, _⟩
          exact absurd he1.symm ho
        · exact ⟨archs2, hr, ha⟩

theorem platformLoop_found (l : List (String × List String)) (os arch : String)
    (archs : List String) (hnd : (l.map Prod.fst).Nodup)
    (hm : (os, archs) ∈ l) (ha : arch ∉ archs) :
    platformLoop l os arch = [.invalidCombination os arch] := by
  induction l with
  | nil => simp at hm
  | cons p rest ih =>
    rcases p with ⟨o, archs2⟩
    rw [List.map_cons, List.nodup_cons] at hnd
    by_cases ho : o = os
    · subst ho
      rcases List.mem_cons.mp hm with he | hr
      · rcases Prod.mk.injEq .. ▸ he with ⟨_, harchs⟩
        subst harchs
        simp [platformLoop, ha]
      · exact absurd (List.mem_map.mpr ⟨(o, archs), hr, rfl⟩) hnd.1
    · rcases List.mem_cons.mp hm with he | hr
      · rcases Prod.mk.injEq .. ▸ he with ⟨he1, _⟩
        exact absurd he1.symm ho
      · simp only [platformLoop, if_neg ho]
        exact ih hnd.2 hr

/-- C7: the platform checker accepts an (OS, architecture) pair iff it is
in the fixed `validCombins` table (linux allows 386, amd64, arm, arm64,
ppc64, ppc64le, mips64, mips64le); an OS absent from the table yields the
single error naming the OS, and any listed OS with an architecture outside
its row yields the single error naming both; concretely (linux, amd64) is
accepted, (linux, sparc) yields the one error naming both, and
(aix, amd64) yields the one unknown-OS error. -/
theorem checkPlatform_allowlist :
    (∀ (doc : Spec) (rootfs : String),
       checkPlatform doc rootfs = [] ↔
         ∃ archs, (doc.platform.os, archs) ∈ validCombins ∧
           doc.platform.arch ∈ archs) ∧
    (∀ (doc : Spec) (rootfs : String),
       doc.platform.os ∉ validCombins.map Prod.fst →
         checkPlatform doc rootfs = [.unsupportedOS doc.platform.os]) ∧
    (∀ (doc : Spec) (rootfs : String) (archs : List String),
       (doc.platform.os, archs) ∈ validCombins →
       doc.platform.arch ∉ archs →
         checkPlatform doc rootfs =
           [.invalidCombination doc.platform.os doc.platform.arch]) ∧
    ("linux", ["386", "amd64", "arm", "arm64", "ppc64", "ppc64le",
               "mips64", "mips64le"]) ∈ validCombins ∧
    checkPlatform { goodDoc with platform := ⟨"linux", "amd64"⟩ } "" = [] ∧
    checkPlatform { goodDoc with platform := ⟨"linux", "sparc"⟩ } "" =
      [.invalidCombination "linux" "sparc"] ∧
    checkPlatform { goodDoc with platform := ⟨"aix", "amd64"⟩ } "" =
      [.unsupportedOS "aix"] := by
  refine ⟨?_, ?_, ?_, by decide, by decide, by decide, by decide⟩
  · intro doc rootfs
    exact platformLoop_empty_iff validCombins doc.platform.os
      doc.platform.arch (by decide)
  · intro doc rootfs h
    exact platformLoop_os_not_found validCombins doc.platform.os
      doc.platform.arch h
  · intro doc rootfs archs hm ha
    exact platformLoop_found validCombins doc.platform.os
      doc.platform.arch archs (by decide) hm ha

/-- Witness for C7 at listed-OS/disallowed-architecture and unknown-OS
points away from the claim's own examples: (freebsd, sparc) yields the
single error naming both, (beos, amd64) the single unknown-OS error. -/
theorem checkPlatform_allowlist_witness :
    checkPlatform { goodDoc with platform := ⟨"freebsd", "sparc"⟩ } "" =
      [Err.invalidCombination "freebsd" "sparc"] ∧
    checkPlatform { goodDoc with platform := ⟨"beos", "amd64"⟩ } "" =
      [Err.unsupportedOS "beos"] :=
  ⟨checkPlatform_allowlist.2.2.1
      { goodDoc with platform := ⟨"freebsd", "sparc"⟩ } ""
      ["386", "amd64", "arm"] (by decide) (by decide),
   checkPlatform_allowlist.2.1
      { goodDoc with platform := ⟨"beos", "amd64"⟩ } "" (by decide)⟩

theorem nsCheckAux_eq (l : List Namespace) (u : Bool) :
    nsCheckAux l u =
      (l.filterMap (fun ns =>
         if namespaceValid ns then none else some (.invalidNamespace ns)),
       u || l.any (fun ns => namespaceValid ns && (ns.type = UTSNamespace : Bool))) := by
  induction l generalizing u with
  | nil => simp [nsCheckAux]
  | cons ns rest ih =>
    by_cases hv : namespaceValid ns
    · simp [nsCheckAux, hv, ih, Bool.or_assoc]
    · simp [nsCheckAux, hv, ih]

theorem hostErr_not_mem_checkSeccomp (s : Seccomp) :
    Err.hostnameRequiresUTS ∉ checkSeccomp s := by
  intro h
  simp only [checkSeccomp, List.mem_append] at h
  rcases h with (h | h) | h
  · split at h <;> simp_all
  · rcases List.mem_filterMap.mp h with ⟨sc, _, heq⟩
    split at heq <;> simp_all
  · rcases List.mem_filterMap.mp h with ⟨a, _, heq⟩
    split at heq <;> simp_all

/-- The uts-namespace entry added in the C8 experiment. -/
def utsNS : Namespace := { type := UTSNamespace, path := "" }

/-- The same document with a (valid) uts-namespace entry appended to its
namespace list. -/
def addUtsNamespace (d : Spec) : Spec :=
  { d with linux := { d.linux with
      namespaces := d.linux.namespaces ++ [utsNS] } }

theorem checkLinux_decomp (d : Spec) (r : String) :
    checkLinux d r =
      (if d.linux.uidMappings.length > 5 then [Err.tooManyUIDMappings] else [])
      ++ (if d.linux.gidMappings.length > 5 then [Err.tooManyGIDMappings] else [])
      ++ (nsCheckAux d.linux.namespaces false).1
      ++ (if d.platform.os = "linux" && !(nsCheckAux d.linux.namespaces false).2
            && !(d.hostname = "") then [Err.hostnameRequiresUTS] else [])
      ++ d.linux.devices.filterMap
          (fun dv => if deviceValid dv then none else some (Err.invalidDevice dv))
      ++ (match d.linux.seccomp with | none => [] | some s => checkSeccomp s)
      ++ (if rootfsPropagationValid d.linux.rootfsPropagation then []
          else [Err.invalidRootfsPropagation]) := rfl

/-- C8: on a linux-target document with a non-empty hostname and no uts
entry among its namespaces, `checkLinux` emits the hostname/UTS error
exactly once; on the same document with a uts-namespace entry added, that
error is gone and the rest of the checker's output is unchanged. -/
theorem checkLinux_hostname_uts :
    ∀ (d : Spec) (r : String),
      d.platform.os = "linux" →
      d.hostname ≠ "" →
      (∀ ns ∈ d.linux.namespaces, ns.type ≠ UTSNamespace) →
      ((checkLinux d r).countP (fun e => e = Err.hostnameRequiresUTS) = 1 ∧
       (checkLinux (addUtsNamespace d) r).countP
         (fun e => e = Err.hostnameRequiresUTS) = 0 ∧
       (checkLinux (addUtsNamespace d) r).filter
           (fun e => !(e = Err.hostnameRequiresUTS : Bool)) =
         (checkLinux d r).filter
           (fun e => !(e = Err.hostnameRequiresUTS : Bool))) := by
  intro d r hos hhost hns
  have hflag : (nsCheckAux d.linux.namespaces false).2 = false := by
    rw [nsCheckAux_eq]
    simp only [Bool.false_or, List.any_eq_false]
    intro ns hm
    simp [hns ns hm]
  have hflag2 : (nsCheckAux (d.linux.namespaces ++ [utsNS]) false).2 = true := by
    rw [nsCheckAux_eq]
    simp only [Bool.false_or, List.any_append, Bool.or_eq_true]
    right
    decide
  have hns1 : (nsCheckAux (d.linux.namespaces ++ [utsNS]) false).1 =
      (nsCheckAux d.linux.namespaces false).1 := by
    rw [nsCheckAux_eq, nsCheckAux_eq]
    simp only [List.filterMap_append]
    have : [utsNS].filterMap (fun ns =>
        if namespaceValid ns then none else some (Err.invalidNamespace ns)) = [] := by
      decide
    simp [this]
  have hcnt_ns : ((nsCheckAux d.linux.namespaces false).1).countP
      (fun e => e = Err.hostnameRequiresUTS) = 0 := by
    rw [nsCheckAux_eq]
    refine List.countP_eq_zero.mpr ?_
    intro e he
    rcases List.mem_filterMap.mp he with ⟨ns, _, heq⟩
    by_cases hv : namespaceValid ns
    · simp [hv] at heq
    · simp [hv] at heq
      simp [← heq]
  have hcnt_dev : ∀ devs : List Device, (devs.filterMap
      (fun dv => if deviceValid dv then none else some (Err.invalidDevice dv))).countP
      (fun e => e = Err.hostnameRequiresUTS) = 0 := by
    intro devs
    refine List.countP_eq_zero.mpr ?_
    intro e he
    rcases List.mem_filterMap.mp he with ⟨dv, _, heq⟩
    by_cases hv : deviceValid dv
    · simp [hv] at heq
    · simp [hv] at heq
      simp [← heq]
  have hcnt_sec : ∀ o : Option Seccomp, (match o with
      | none => [] | some s => checkSeccomp s).countP
      (fun e => e = Err.hostnameRequiresUTS) = 0 := by
    intro o
    cases o with
    | none => simp
    | some s =>
      refine List.countP_eq_zero.mpr ?_
      intro e he hpe
      have he2 : e = Err.hostnameRequiresUTS := of_decide_eq_true hpe
      subst he2
      exact hostErr_not_mem_checkSeccomp s he
  have huid : List.countP (fun e => decide (e = Err.hostnameRequiresUTS))
      (if d.linux.uidMappings.length > 5 then [Err.tooManyUIDMappings] else []) = 0 := by
    split <;> simp
  have hgid : List.countP (fun e => decide (e = Err.hostnameRequiresUTS))
      (if d.linux.gidMappings.length > 5 then [Err.tooManyGIDMappings] else []) = 0 := by
    split <;> simp
  have hprop : List.countP (fun e => decide (e = Err.hostnameRequiresUTS))
      (if rootfsPropagationValid d.linux.rootfsPropagation then []
       else [Err.invalidRootfsPropagation]) = 0 := by
    split <;> simp
  rw [checkLinux_decomp, checkLinux_decomp]
  simp only [addUtsNamespace]
  simp only [hflag, hflag2, hns1]
  refine ⟨?_, ?_, ?_⟩
  · simp [List.countP_append, hcnt_ns, hcnt_dev, hcnt_sec, huid, hgid, hprop,
      hos, hhost]
  · simp [List.countP_append, hcnt_ns, hcnt_dev, hcnt_sec, huid, hgid, hprop,
      hos, hhost]
  · simp [List.filter_append, hos, hhost]

/-- Witness for C8 at a concrete document: hostname `"myhost"`, linux
target, empty namespace list. -/
theorem checkLinux_hostname_uts_witness :
    (checkLinux { goodDoc with hostname := "myhost" } "").countP
        (fun e => e = Err.hostnameRequiresUTS) = 1 ∧
    (checkLinux (addUtsNamespace { goodDoc with hostname := "myhost" }) "").countP
        (fun e => e = Err.hostnameRequiresUTS) = 0 ∧
    (checkLinux (addUtsNamespace { goodDoc with hostname := "myhost" }) "").filter
        (fun e => !(e = Err.hostnameRequiresUTS : Bool)) =
      (checkLinux { goodDoc with hostname := "myhost" } "").filter
        (fun e => !(e = Err.hostnameRequiresUTS : Bool)) :=
  checkLinux_hostname_uts { goodDoc with hostname := "myhost" } "" rfl
    (by decide) (by intro ns hm; simp [goodDoc] at hm)

/-- C10: the mandatory-field walker's per-field check reports emptiness
only for pointer, string, slice and map kinds: a numeric or boolean field
is never reported, whatever its value and whether or not it is marked
required, while an empty mandatory pointer/string/slice/map is
reported. -/
theorem checkMandatoryUnit_scalar_kinds :
    (∀ (n : Int) (fname : String) (omitempty : Bool) (parent : String),
       checkMandatoryUnit (.num n) fname omitempty parent = []) ∧
    (∀ (b : Bool) (fname : String) (omitempty : Bool) (parent : String),
       checkMandatoryUnit (.boolean b) fname omitempty parent = []) ∧
    (∀ (fname parent : String),
       checkMandatoryUnit (.str "") fname false parent =
         [.fieldEmptyUnit parent fname] ∧
       checkMandatoryUnit (.ptr false none) fname false parent =
         [.fieldEmptyUnit parent fname] ∧
       checkMandatoryUnit (.slice []) fname false parent =
         [.fieldEmptyUnit parent fname] ∧
       checkMandatoryUnit (.mp []) fname false parent =
         [.fieldEmptyUnit parent fname]) := by
  refine ⟨?_, ?_, ?_⟩
  · intro n fname omitempty parent
    simp [checkMandatoryUnit]
  · intro b fname omitempty parent
    simp [checkMandatoryUnit]
  · intro fname parent
    refine ⟨?_, ?_, ?_, ?_⟩ <;> simp [checkMandatoryUnit]

/-- A hook whose path exists nowhere on the host. -/
def missingHook : Hook := { path := "/nonexistent-hook", args := [], env := [] }

/-- C2 (code bug): with host verification enabled and a hook path that
cannot be stat'ed, `checkEventHooks` does append the cannot-find error,
but then dereferences the nil `FileInfo` (`fi.Mode()`) and panics: the
run aborts, the accumulated errors are lost, and the remaining hooks are
never examined (second conjunct: a second hook with a relative path and a
bad environment entry produces no report).  With verification disabled
the same hook passes with no error (third conjunct), so the crash is
specific to the stat failure. -/
theorem checkEventHooks_panics_on_missing_hook :
    checkEventHooks "pre-start" true emptyFS [missingHook] =
      .error "runtime error: invalid memory address or nil pointer dereference" ∧
    checkEventHooks "pre-start" true emptyFS
        [missingHook, { path := "relative/path", args := [], env := ["=x"] }] =
      .error "runtime error: invalid memory address or nil pointer dereference" ∧
    checkEventHooks "pre-start" false emptyFS [missingHook] = .ok [] := by
  refine ⟨rfl, rfl, rfl⟩

theorem exceptOkBind {A B : Type} (a : A) (f : A → Except String B) :
    (Except.ok a >>= f) = f a := rfl

theorem exceptErrorBind {A B : Type} (e : String) (f : A → Except String B) :
    ((Except.error e : Except String A) >>= f) = Except.error e := rfl

theorem checkOneHook_false_ok (ht : String) (fs : FS) (hook : Hook) :
    ∀ e, checkOneHook ht false fs hook ≠ .error e := by
  intro e
  simp [checkOneHook]

theorem checkEventHooks_false_ok (ht : String) (fs : FS) (l : List Hook) :
    ∃ es, checkEventHooks ht false fs l = .ok es := by
  induction l with
  | nil => exact ⟨[], rfl⟩
  | cons hook rest ih =>
    obtain ⟨es, hes⟩ := ih
    cases hone : checkOneHook ht false fs hook with
    | error e => exact absurd hone (checkOneHook_false_ok ht fs hook e)
    | ok es1 =>
      refine ⟨es1 ++ es, ?_⟩
      simp [checkEventHooks, hone, hes, exceptOkBind]

theorem checkHooks_false_ok (fs : FS) (doc : Spec) (rootfs : String) :
    ∃ es, checkHooks false fs doc rootfs = .ok es := by
  obtain ⟨e1, h1⟩ := checkEventHooks_false_ok "pre-start" fs doc.hooks.prestart
  obtain ⟨e2, h2⟩ := checkEventHooks_false_ok "post-start" fs doc.hooks.poststart
  obtain ⟨e3, h3⟩ := checkEventHooks_false_ok "post-stop" fs doc.hooks.poststop
  exact ⟨e1 ++ e2 ++ e3, by simp [checkHooks, h1, h2, h3, exceptOkBind]⟩

/-- C1: the pipeline runs the walker and the five semantic checkers in
the fixed order (mandatory-fields, version, platform, process, linux,
hooks); whenever the run completes, the logged error stream is exactly
the concatenation of the six checkers' error lists in that order
(so no checker's errors suppress a later checker), and the verdict is
compliant (`ret = 0`) iff that concatenation is empty.  With host hook
verification off — the only source of the checkHooks panic — the run
always completes. -/
theorem bundleValidate_pipeline :
    ∀ (hooksCheck : Bool) (fs : FS) (doc : Spec) (rootfs : String),
      (hooksCheck = false →
        ∃ res, bundleValidate hooksCheck fs doc rootfs = .ok res) ∧
      ∀ res, bundleValidate hooksCheck fs doc rootfs = .ok res →
        ∃ hookErrs, checkHooks hooksCheck fs doc rootfs = .ok hookErrs ∧
          res.1 = checkMandatoryFields doc rootfs ++ checkSemVer doc rootfs ++
                  checkPlatform doc rootfs ++ checkProcess fs doc rootfs ++
                  checkLinux doc rootfs ++ hookErrs ∧
          (res.2 = 0 ↔ res.1 = []) := by
  intro hc fs doc rootfs
  constructor
  · intro hfalse
    subst hfalse
    obtain ⟨hE, hhE⟩ := checkHooks_false_ok fs doc rootfs
    cases hb : bundleValidate false fs doc rootfs with
    | ok res => exact ⟨res, rfl⟩
    | error e =>
      simp [bundleValidate, runChecksAux, checks, hhE, exceptOkBind] at hb
  · intro res hres
    cases hH : checkHooks hc fs doc rootfs with
    | error e =>
      simp [bundleValidate, runChecksAux, checks, hH, exceptOkBind, exceptErrorBind] at hres
    | ok hookErrs =>
      refine ⟨hookErrs, rfl, ?_⟩
      rcases res with ⟨l, ret⟩
      simp only [bundleValidate, runChecksAux, checks, hH, exceptOkBind,
        Except.ok.injEq, Prod.mk.injEq] at hres
      obtain ⟨hl, hret⟩ := hres
      subst hl
      subst hret
      constructor
      · simp [List.append_assoc]
      · split_ifs <;> simp_all [List.isEmpty_iff]

/-- Witness for C1: at the concrete compliant document, with host hook
verification off, the pipeline completes, the error stream is the (empty)
concatenation of all six checkers' outputs, and the verdict is
compliant. -/
theorem bundleValidate_pipeline_witness :
    (∃ res, bundleValidate false emptyFS goodDoc "" = .ok res) ∧
    ∃ hookErrs, checkHooks false emptyFS goodDoc "" = .ok hookErrs ∧
      (([], 0) : List Err × Nat).1 = checkMandatoryFields goodDoc "" ++
          checkSemVer goodDoc "" ++ checkPlatform goodDoc "" ++
          checkProcess emptyFS goodDoc "" ++ checkLinux goodDoc "" ++ hookErrs ∧
      ((([], 0) : List Err × Nat).2 = 0 ↔ (([], 0) : List Err × Nat).1 = []) := by
  have hMF : checkMandatoryFields goodDoc "" = [] := by
    simp [checkMandatoryFields, specToGoVal, specToGoVal.hookToGoVal,
      specToGoVal.idMapToGoVal, checkMandatory, walkFields, checkMandatoryUnit,
      elemsErrs, goodDoc]
    decide
  have hother : checkSemVer goodDoc "" = [] ∧ checkPlatform goodDoc "" = [] ∧
      checkProcess emptyFS goodDoc "" = [] ∧ checkLinux goodDoc "" = [] := by
    decide
  have hok : bundleValidate false emptyFS goodDoc "" = .ok ([], 0) := by
    simp [bundleValidate, runChecksAux, checks, exceptOkBind, hMF, hother.1,
      hother.2.1, hother.2.2.1, hother.2.2.2, checkHooks, checkEventHooks]
  exact ⟨(bundleValidate_pipeline false emptyFS goodDoc "").1 rfl,
         (bundleValidate_pipeline false emptyFS goodDoc "").2 ([], 0) hok⟩
